import Mathlib

/-!
Shallow embedding of the `expandable_grid` Rust crate (files
`src/expandable_grid.rs`, `src/util.rs`, `src/subchunk.rs`) together with
proofs about the growth algorithm, the coordinate translator, the
resize/relocation routine and the subchunk translation.

Modelling conventions:
* `nalgebra::Vector2<usize>` / `Vector2<isize>` become `Vector2 Nat` /
  `Vector2 Int` (machine-word overflow is not modelled; all claims are about
  values far below `2^64`, and Rust debug builds treat overflow as a panic,
  which the `Option` results below also represent where it can occur).
* Fallible steps (the `expect` on `checked_add_signed`, indexing a buffer, the
  `usize` subtraction that computes the copy window) are represented with
  `Option`: `none` is a panic.
-/

/-- `nalgebra::Vector2`, a pair of coordinates `x`, `y`. -/
structure Vector2 (α : Type) where
  x : α
  y : α
deriving DecidableEq, Repr

/-- `src/util.rs::calculate_exponential_distance`.
`let minimum_size = current_size + distance as usize;
 let new_size = minimum_size.max(current_size * 2);
 new_size - current_size`.
The `distance as usize` cast is modelled as `Int.toNat`; every call site in the
crate guards `distance > 0`, where the two coincide. -/
def calculate_exponential_distance (distance : Int) (current_size : Nat) : Nat :=
  let minimum_size := current_size + distance.toNat
  let new_size := max minimum_size (current_size * 2)
  new_size - current_size

/-- `src/util.rs::usize_vec_to_isize`: componentwise `usize as isize` cast. -/
def usize_vec_to_isize (v : Vector2 Nat) : Vector2 Int :=
  ⟨(v.x : Int), (v.y : Int)⟩

/-- `src/util.rs::isize_vec_to_usize_saturating`:
componentwise `if v < 0 { 0 } else { v as usize }`, i.e. `Int.toNat`. -/
def isize_vec_to_usize_saturating (v : Vector2 Int) : Vector2 Nat :=
  ⟨v.x.toNat, v.y.toNat⟩

/-- Rust's `usize::checked_add_signed`: `none` when the signed addend would
take the value below zero (the source `expect`s on this, i.e. panics). -/
def checked_add_signed (n : Nat) (i : Int) : Option Nat :=
  if (n : Int) + i < 0 then none else some ((n : Int) + i).toNat

/-- `ExpandableGrid<T>` from `src/expandable_grid.rs`: a flat row-major
buffer `data` of nominal extent `size`, whose cell `(0,0)` sits at the signed
logical coordinate `origin`. -/
structure ExpandableGrid (T : Type) where
  size : Vector2 Nat
  origin : Vector2 Int
  data : List T
deriving DecidableEq, Repr

namespace ExpandableGrid

variable {T : Type}

/-- `ExpandableGrid::new()`: the empty grid. -/
def new : ExpandableGrid T :=
  ⟨⟨0, 0⟩, ⟨0, 0⟩, []⟩

/-- `ExpandableGrid::with_size(size, origin, fill)`: a grid of `size.x * size.y`
clones of `fill`. -/
def with_size (size : Vector2 Nat) (origin : Vector2 Int) (fill : T) :
    ExpandableGrid T :=
  ⟨size, origin, List.replicate (size.x * size.y) fill⟩

/-- `ExpandableGrid::index_of(index)`: the coordinate translator. Subtracts the
origin, reports `none` if either component is negative or at least the
corresponding size, and otherwise returns `x + y * size.x`. -/
def index_of (g : ExpandableGrid T) (index : Vector2 Int) : Option Nat :=
  let ax := index.x - g.origin.x
  let ay := index.y - g.origin.y
  if ax < 0 ∨ ay < 0 then
    none
  else
    let axn := ax.toNat
    let ayn := ay.toNat
    if axn ≥ g.size.x ∨ ayn ≥ g.size.y then
      none
    else
      some (axn + ayn * g.size.x)

/-- The membership condition of the data model: `c` lies in
`[origin, origin + size)` on both axes. -/
def InBounds (g : ExpandableGrid T) (c : Vector2 Int) : Prop :=
  g.origin.x ≤ c.x ∧ c.x < g.origin.x + g.size.x ∧
  g.origin.y ≤ c.y ∧ c.y < g.origin.y + g.size.y

instance (g : ExpandableGrid T) (c : Vector2 Int) : Decidable (g.InBounds c) := by
  unfold InBounds
  infer_instance

/-- Outcome of one access through `get`/`get_mut`/`Index`: a value, a soft
"not present" (`Option::None` in the source), or a panic. The three are
distinct constructors — the two failure modes are never conflated. -/
inductive Lookup (T : Type) where
  | found : T → Lookup T
  | absent : Lookup T
  | panicked : Lookup T
deriving DecidableEq, Repr

/-- `ExpandableGrid::get`: `Some(&self.data[self.index_of(index)?])`.
`index_of` returning `None` is soft absence; the buffer indexing panics if the
translated position were out of the buffer (impossible under the length
invariant). -/
def get (g : ExpandableGrid T) (index : Vector2 Int) : Lookup T :=
  match g.index_of index with
  | none => .absent
  | some k =>
    match g.data[k]? with
    | some v => .found v
    | none => .panicked

/-- `ExpandableGrid::get_mut`: same translation as `get`; the result names the
element the returned mutable reference would point at. -/
def get_mut (g : ExpandableGrid T) (index : Vector2 Int) : Lookup T :=
  match g.index_of index with
  | none => .absent
  | some k =>
    match g.data[k]? with
    | some v => .found v
    | none => .panicked

/-- The `Index` impl: `self.get(index).unwrap()` — soft absence is turned into
a panic. -/
def index_op (g : ExpandableGrid T) (index : Vector2 Int) : Lookup T :=
  match g.get index with
  | .found v => .found v
  | _ => .panicked

/-- A point write through `get_mut` (`if let Some(r) = g.get_mut(c) { *r = v }`):
out-of-bounds writes are dropped, in-bounds writes replace one buffer cell. -/
def set (g : ExpandableGrid T) (index : Vector2 Int) (v : T) : ExpandableGrid T :=
  match g.index_of index with
  | none => g
  | some k => { g with data := g.data.set k v }

/-- One cell of the buffer built by `change_size`'s copy loop, indexed by the
flat position `n` of the freshly allocated `fill`-buffer. The loop writes
`data[x + y * new_size.x] = old.data[(x + offset.x) + (y + offset.y) * old.size.x]`
for every `(x, y)` with `startv ≤ (x, y) < endv`; positions outside that
window keep the `fill` the new buffer was allocated with. The two
`checked_add_signed` calls carry the source's `expect`s (a `none` is that
panic), and the `Option`-valued list lookup carries the `old.data[..]`
indexing panic. -/
def copy_cell (old : ExpandableGrid T) (new_size : Vector2 Nat)
    (offset : Vector2 Int) (fill : T) (startv endv : Vector2 Nat) (n : Nat) :
    Option T :=
  let x := n % new_size.x
  let y := n / new_size.x
  if startv.x ≤ x ∧ x < endv.x ∧ startv.y ≤ y ∧ y < endv.y then
    match checked_add_signed x offset.x, checked_add_signed y offset.y with
    | some ox, some oy => old.data[ox + oy * old.size.x]?
    | _, _ => none
  else
    some fill

/-- The buffer produced by `change_size`'s allocation plus copy loop: every
flat position gets its `copy_cell`; if any cell's copy panics the whole loop
panics (`none`). Since `(x, y) ↦ x + y * new_size.x` hits each flat position
at most once, this positionwise description is exactly the imperative loop. -/
def copy_data (old : ExpandableGrid T) (new_size : Vector2 Nat)
    (offset : Vector2 Int) (fill : T) (startv endv : Vector2 Nat) :
    Option (List T) :=
  let total := new_size.x * new_size.y
  if (List.range total).all
      (fun n => (copy_cell old new_size offset fill startv endv n).isSome) then
    some ((List.range total).map
      (fun n => (copy_cell old new_size offset fill startv endv n).getD fill))
  else
    none

/-- The body of `ExpandableGrid::change_size` after its empty-buffer
substitution (`g` here is `*self` at the point where `relative_size` is
computed). `none` is a panic: either the `usize` subtraction
`new_size - isize_vec_to_usize_saturating(corner_offset)` underflows, or the
copy loop panics (`copy_data`/`copy_cell`). On success the grid gets the new
buffer, `size = new_size`, and `origin += offset`. -/
def change_size_body (g : ExpandableGrid T) (new_size : Vector2 Nat)
    (offset : Vector2 Int) (fill : T) : Option (ExpandableGrid T) :=
  let relative_size : Vector2 Int :=
    ⟨(usize_vec_to_isize new_size).x - (usize_vec_to_isize g.size).x,
     (usize_vec_to_isize new_size).y - (usize_vec_to_isize g.size).y⟩
  let corner_offset : Vector2 Int :=
    ⟨offset.x + relative_size.x, offset.y + relative_size.y⟩
  let startv := isize_vec_to_usize_saturating ⟨-offset.x, -offset.y⟩
  let sat_corner := isize_vec_to_usize_saturating corner_offset
  if sat_corner.x ≤ new_size.x ∧ sat_corner.y ≤ new_size.y then
    let endv : Vector2 Nat := ⟨new_size.x - sat_corner.x, new_size.y - sat_corner.y⟩
    match copy_data g new_size offset fill startv endv with
    | some data => some ⟨new_size, ⟨g.origin.x + offset.x, g.origin.y + offset.y⟩, data⟩
    | none => none
  else
    none

/-- `ExpandableGrid::change_size(new_size, offset, fill)`. The source first
runs `if self.data.len() == 0 { *self = ExpandableGrid::with_size(new_size, offset, fill); }`
and then — with no early return — continues with the copy machinery on the
(possibly replaced) grid, ending in `self.origin += offset`. -/
def change_size (g : ExpandableGrid T) (new_size : Vector2 Nat)
    (offset : Vector2 Int) (fill : T) : Option (ExpandableGrid T) :=
  change_size_body
    (if g.data.length = 0 then with_size new_size offset fill else g)
    new_size offset fill

/-- The low-side x growth of `expand_to_fit_box`: the first x-axis `if` block.
Zero when the box does not extend below `origin.x`. -/
def growth_low_x (g : ExpandableGrid T) (box_origin : Vector2 Int) : Nat :=
  if box_origin.x < g.origin.x then
    calculate_exponential_distance (g.origin.x - box_origin.x) g.size.x
  else 0

/-- The high-side x growth of `expand_to_fit_box`: the second x-axis `if`
block, comparing `box_corner.x = box_size.x + box_origin.x` against
`area_corner.x = size.x + origin.x`. Both x-axis growths are computed against
the same pre-growth `size.x`. -/
def growth_high_x (g : ExpandableGrid T) (box_origin : Vector2 Int)
    (box_size : Vector2 Nat) : Nat :=
  if (box_size.x : Int) + box_origin.x > (g.size.x : Int) + g.origin.x then
    calculate_exponential_distance
      (((box_size.x : Int) + box_origin.x) - ((g.size.x : Int) + g.origin.x)) g.size.x
  else 0

/-- The low-side y growth of `expand_to_fit_box` (first y-axis `if` block). -/
def growth_low_y (g : ExpandableGrid T) (box_origin : Vector2 Int) : Nat :=
  if box_origin.y < g.origin.y then
    calculate_exponential_distance (g.origin.y - box_origin.y) g.size.y
  else 0

/-- The high-side y growth of `expand_to_fit_box` (second y-axis `if` block). -/
def growth_high_y (g : ExpandableGrid T) (box_origin : Vector2 Int)
    (box_size : Vector2 Nat) : Nat :=
  if (box_size.y : Int) + box_origin.y > (g.size.y : Int) + g.origin.y then
    calculate_exponential_distance
      (((box_size.y : Int) + box_origin.y) - ((g.size.y : Int) + g.origin.y)) g.size.y
  else 0

/-- `ExpandableGrid::expand_to_fit_box(box_origin, box_size, fill)`. When
`size == (0,0)` the grid is replaced wholesale. Otherwise the four `if` blocks
accumulate `new_size` (starting from `size`) and `offset` (starting from
`(0,0)`, set to minus the low-side growth); `expanded` records whether any
block fired, and exactly one `change_size` call happens when it did. -/
def expand_to_fit_box (g : ExpandableGrid T) (box_origin : Vector2 Int)
    (box_size : Vector2 Nat) (fill : T) : Option (ExpandableGrid T) :=
  if g.size.x = 0 ∧ g.size.y = 0 then
    some ⟨box_size, box_origin, List.replicate (box_size.x * box_size.y) fill⟩
  else
    let lx := growth_low_x g box_origin
    let hx := growth_high_x g box_origin box_size
    let ly := growth_low_y g box_origin
    let hy := growth_high_y g box_origin box_size
    let expanded := box_origin.x < g.origin.x ∨
      (box_size.x : Int) + box_origin.x > (g.size.x : Int) + g.origin.x ∨
      box_origin.y < g.origin.y ∨
      (box_size.y : Int) + box_origin.y > (g.size.y : Int) + g.origin.y
    if expanded then
      change_size g ⟨g.size.x + lx + hx, g.size.y + ly + hy⟩
        ⟨-(lx : Int), -(ly : Int)⟩ fill
    else
      some g

/-- `ExpandableGrid::expand_to_fit_point(point, fill)`:
`expand_to_fit_box(point, (1,1), fill)`. -/
def expand_to_fit_point (g : ExpandableGrid T) (point : Vector2 Int) (fill : T) :
    Option (ExpandableGrid T) :=
  g.expand_to_fit_box point ⟨1, 1⟩ fill

/-- `ExpandableGrid::<T: Subchunk>::subchunk_index_of(index)` from
`src/subchunk.rs`, with the associated constant `T::SUBCHUNK_SIZE` passed as
the parameter `sub_size`. Rust's `div_euclid`/`rem_euclid` are Euclidean
division, which is what `/` and `%` on `Int` mean in Lean; the `as usize` cast
of the (non-negative) remainder is `toNat`. -/
def subchunk_index_of (sub_size : Vector2 Nat) (index : Vector2 Int) :
    Vector2 Int × Vector2 Nat :=
  (⟨index.x / (sub_size.x : Int), index.y / (sub_size.y : Int)⟩,
   ⟨(index.x % (sub_size.x : Int)).toNat, (index.y % (sub_size.y : Int)).toNat⟩)

/-- The buffer `change_size` builds on the expansion path taken by
`expand_to_fit_box`: new size `(size.x + lx + hx, size.y + ly + hy)`, offset
`(-lx, -ly)`, so the copy window is `[lx, size.x + lx) x [ly, size.y + ly)`. -/
def expanded_data (g : ExpandableGrid T) (fill : T) (lx hx ly hy : Nat) : List T :=
  (List.range ((g.size.x + lx + hx) * (g.size.y + ly + hy))).map
    (fun n => (copy_cell g ⟨g.size.x + lx + hx, g.size.y + ly + hy⟩
      ⟨-(lx : Int), -(ly : Int)⟩ fill ⟨lx, ly⟩ ⟨g.size.x + lx, g.size.y + ly⟩ n).getD fill)

/-!
## Lemmas

Characterizations of the translator, the copy loop and the two growth
entry points, followed by the claim theorems.
-/

theorem index_of_eq_some_iff (g : ExpandableGrid T) (c : Vector2 Int) (n : Nat) :
    g.index_of c = some n ↔
      g.InBounds c ∧ n = (c.x - g.origin.x).toNat + (c.y - g.origin.y).toNat * g.size.x := by
  simp only [index_of, InBounds]
  split_ifs with h1 h2 <;> simp_all <;> omega

theorem index_of_eq_none_iff (g : ExpandableGrid T) (c : Vector2 Int) :
    g.index_of c = none ↔ ¬ g.InBounds c := by
  simp only [index_of, InBounds]
  split_ifs with h1 h2 <;> simp_all <;> omega

theorem checked_add_signed_eq_none_iff (n : Nat) (i : Int) :
    checked_add_signed n i = none ↔ (n : Int) + i < 0 := by
  unfold checked_add_signed
  split_ifs with h <;> simp_all

theorem checked_add_signed_of_toNat_le (n : Nat) (i : Int) (h : (-i).toNat ≤ n) :
    checked_add_signed n i = some ((n : Int) + i).toNat := by
  unfold checked_add_signed
  rw [if_neg]
  omega

theorem copy_data_eq_some (old : ExpandableGrid T) (new_size : Vector2 Nat)
    (offset : Vector2 Int) (fill : T) (startv endv : Vector2 Nat)
    (h : ∀ n, (copy_cell old new_size offset fill startv endv n).isSome) :
    copy_data old new_size offset fill startv endv =
      some ((List.range (new_size.x * new_size.y)).map
        (fun n => (copy_cell old new_size offset fill startv endv n).getD fill)) := by
  unfold copy_data
  rw [if_pos]
  rw [List.all_eq_true]
  intro n _
  exact h n

theorem copy_data_length (old : ExpandableGrid T) (new_size : Vector2 Nat)
    (offset : Vector2 Int) (fill : T) (startv endv : Vector2 Nat) (L : List T)
    (h : copy_data old new_size offset fill startv endv = some L) :
    L.length = new_size.x * new_size.y := by
  simp only [copy_data] at h
  split_ifs at h
  simp only [Option.some_inj] at h
  subst h
  simp

theorem lt_total_of_components (W H a b : Nat) (ha : a < W) (hb : b < H) :
    a + b * W < W * H := by
  calc a + b * W < W + b * W := by omega
    _ = (b + 1) * W := by ring
    _ ≤ H * W := Nat.mul_le_mul_right _ (by omega)
    _ = W * H := Nat.mul_comm _ _

theorem copy_cell_in_window (g : ExpandableGrid T) (fill : T) (lx hx ly hy a b : Nat)
    (ha : a < g.size.x) (hb : b < g.size.y) :
    copy_cell g ⟨g.size.x + lx + hx, g.size.y + ly + hy⟩ ⟨-(lx : Int), -(ly : Int)⟩ fill
      ⟨lx, ly⟩ ⟨g.size.x + lx, g.size.y + ly⟩ ((a + lx) + (b + ly) * (g.size.x + lx + hx)) =
      g.data[a + b * g.size.x]? := by
  have hW : a + lx < g.size.x + lx + hx := by omega
  have hmod : ((a + lx) + (b + ly) * (g.size.x + lx + hx)) % (g.size.x + lx + hx) = a + lx := by
    rw [Nat.add_mul_mod_self_right, Nat.mod_eq_of_lt hW]
  have hdiv : ((a + lx) + (b + ly) * (g.size.x + lx + hx)) / (g.size.x + lx + hx) = b + ly := by
    rw [Nat.add_mul_div_right _ _ (by omega), Nat.div_eq_of_lt hW]
    omega
  simp only [copy_cell, hmod, hdiv]
  rw [if_pos (by omega)]
  rw [checked_add_signed_of_toNat_le _ _ (by omega), checked_add_signed_of_toNat_le _ _ (by omega)]
  have h1 : (((a + lx : Nat) : Int) + -(lx : Int)).toNat = a := by omega
  have h2 : (((b + ly : Nat) : Int) + -(ly : Int)).toNat = b := by omega
  rw [h1, h2]

theorem copy_cell_isSome (g : ExpandableGrid T) (fill : T) (lx hx ly hy : Nat)
    (hlen : g.data.length = g.size.x * g.size.y) (n : Nat) :
    (copy_cell g ⟨g.size.x + lx + hx, g.size.y + ly + hy⟩ ⟨-(lx : Int), -(ly : Int)⟩ fill
      ⟨lx, ly⟩ ⟨g.size.x + lx, g.size.y + ly⟩ n).isSome := by
  simp only [copy_cell]
  split_ifs with hwin
  · obtain ⟨h1, h2, h3, h4⟩ := hwin
    set x := n % (g.size.x + lx + hx) with hxdef
    set y := n / (g.size.x + lx + hx) with hydef
    rw [checked_add_signed_of_toNat_le _ _ (by omega), checked_add_signed_of_toNat_le _ _ (by omega)]
    have hxv : ((x : Int) + -(lx : Int)).toNat < g.size.x := by omega
    have hyv : ((y : Int) + -(ly : Int)).toNat < g.size.y := by omega
    have hidx : ((x : Int) + -(lx : Int)).toNat + ((y : Int) + -(ly : Int)).toNat * g.size.x
        < g.size.x * g.size.y := lt_total_of_components _ _ _ _ hxv hyv
    simp only [Option.isSome_iff_ne_none, ne_eq, List.getElem?_eq_none_iff, not_le, hlen]
    exact hidx
  · simp

theorem change_size_body_expand (g : ExpandableGrid T) (fill : T) (lx hx ly hy : Nat)
    (hlen : g.data.length = g.size.x * g.size.y) :
    change_size_body g ⟨g.size.x + lx + hx, g.size.y + ly + hy⟩
      ⟨-(lx : Int), -(ly : Int)⟩ fill =
      some ⟨⟨g.size.x + lx + hx, g.size.y + ly + hy⟩,
        ⟨g.origin.x + -(lx : Int), g.origin.y + -(ly : Int)⟩,
        expanded_data g fill lx hx ly hy⟩ := by
  have hcx : (-(lx : Int) + (((g.size.x + lx + hx : Nat) : Int) - ((g.size.x : Nat) : Int))).toNat
      = hx := by push_cast; omega
  have hcy : (-(ly : Int) + (((g.size.y + ly + hy : Nat) : Int) - ((g.size.y : Nat) : Int))).toNat
      = hy := by push_cast; omega
  have hsx : (-(-(lx : Int))).toNat = lx := by omega
  have hsy : (-(-(ly : Int))).toNat = ly := by omega
  simp only [change_size_body, usize_vec_to_isize, isize_vec_to_usize_saturating,
    hcx, hcy, hsx, hsy]
  rw [if_pos (by omega)]
  have hex : g.size.x + lx + hx - hx = g.size.x + lx := by omega
  have hey : g.size.y + ly + hy - hy = g.size.y + ly := by omega
  rw [hex, hey]
  rw [copy_data_eq_some _ _ _ _ _ _ (fun n => copy_cell_isSome g fill lx hx ly hy hlen n)]
  rfl

theorem change_size_expand (g : ExpandableGrid T) (fill : T) (lx hx ly hy : Nat)
    (hlen : g.data.length = g.size.x * g.size.y) (hne : g.data.length ≠ 0) :
    change_size g ⟨g.size.x + lx + hx, g.size.y + ly + hy⟩
      ⟨-(lx : Int), -(ly : Int)⟩ fill =
      some ⟨⟨g.size.x + lx + hx, g.size.y + ly + hy⟩,
        ⟨g.origin.x + -(lx : Int), g.origin.y + -(ly : Int)⟩,
        expanded_data g fill lx hx ly hy⟩ := by
  unfold change_size
  rw [if_neg hne]
  exact change_size_body_expand g fill lx hx ly hy hlen

theorem expanded_data_get (g : ExpandableGrid T) (fill : T) (lx hx ly hy a b : Nat)
    (hlen : g.data.length = g.size.x * g.size.y)
    (ha : a < g.size.x) (hb : b < g.size.y) :
    (expanded_data g fill lx hx ly hy)[(a + lx) + (b + ly) * (g.size.x + lx + hx)]? =
      g.data[a + b * g.size.x]? := by
  have hk : (a + lx) + (b + ly) * (g.size.x + lx + hx)
      < (g.size.x + lx + hx) * (g.size.y + ly + hy) :=
    lt_total_of_components _ _ _ _ (by omega) (by omega)
  have hstep : (expanded_data g fill lx hx ly hy)[(a + lx) + (b + ly) * (g.size.x + lx + hx)]? =
      some ((copy_cell g ⟨g.size.x + lx + hx, g.size.y + ly + hy⟩ ⟨-(lx : Int), -(ly : Int)⟩
        fill ⟨lx, ly⟩ ⟨g.size.x + lx, g.size.y + ly⟩
        ((a + lx) + (b + ly) * (g.size.x + lx + hx))).getD fill) := by
    unfold expanded_data
    rw [List.getElem?_map, List.getElem?_range hk]
    rfl
  rw [hstep, copy_cell_in_window g fill lx hx ly hy a b ha hb]
  have hold : a + b * g.size.x < g.data.length := by
    rw [hlen]
    exact lt_total_of_components _ _ _ _ ha hb
  rw [List.getElem?_eq_getElem hold]
  rfl

theorem change_size_body_success (g : ExpandableGrid T) (new_size : Vector2 Nat)
    (offset : Vector2 Int) (fill : T) (g' : ExpandableGrid T)
    (h : change_size_body g new_size offset fill = some g') :
    g'.size = new_size ∧ g'.origin = ⟨g.origin.x + offset.x, g.origin.y + offset.y⟩ ∧
      g'.data.length = new_size.x * new_size.y := by
  simp only [change_size_body] at h
  split_ifs at h
  split at h
  · next L hL =>
    rw [Option.some_inj] at h
    subst h
    exact ⟨rfl, rfl, copy_data_length _ _ _ _ _ _ _ hL⟩
  · cases h

theorem change_size_success (g : ExpandableGrid T) (new_size : Vector2 Nat)
    (offset : Vector2 Int) (fill : T) (g' : ExpandableGrid T)
    (h : change_size g new_size offset fill = some g') :
    g'.size = new_size ∧ g'.data.length = new_size.x * new_size.y := by
  unfold change_size at h
  split_ifs at h with hemp <;>
    exact ⟨(change_size_body_success _ _ _ _ _ h).1, (change_size_body_success _ _ _ _ _ h).2.2⟩

theorem expand_to_fit_box_length (g : ExpandableGrid T) (box_origin : Vector2 Int)
    (box_size : Vector2 Nat) (fill : T) (g' : ExpandableGrid T)
    (hlen : g.data.length = g.size.x * g.size.y)
    (h : g.expand_to_fit_box box_origin box_size fill = some g') :
    g'.data.length = g'.size.x * g'.size.y := by
  simp only [expand_to_fit_box] at h
  split_ifs at h with h0 hexp
  · rw [Option.some_inj] at h
    subst h
    simp
  · obtain ⟨hsz, hdl⟩ := change_size_success _ _ _ _ _ h
    rw [hdl, hsz]
  · rw [Option.some_inj] at h
    subst h
    exact hlen

/-- One axis of the subchunk translation: Euclidean quotient and remainder
against a positive tile extent. -/
theorem floor_axis (a : Int) (m : Nat) (hm : 0 < m) :
    a / (m : Int) = Int.fdiv a (m : Int) ∧
    ((a % (m : Int)).toNat : Int) = Int.fmod a (m : Int) ∧
    (a % (m : Int)).toNat < m := by
  have hpos : (0 : Int) < (m : Int) := by exact_mod_cast hm
  refine ⟨(Int.fdiv_eq_ediv _ (Int.le_of_lt hpos)).symm, ?_, ?_⟩
  · rw [Int.fmod_eq_emod _ (Int.le_of_lt hpos)]
    exact Int.toNat_of_nonneg (Int.emod_nonneg _ (Int.ne_of_gt hpos))
  · have h1 : a % (m : Int) < (m : Int) := Int.emod_lt_of_pos a hpos
    have h0 : (0 : Int) ≤ a % (m : Int) := Int.emod_nonneg _ (Int.ne_of_gt hpos)
    omega

/-- One axis of the reconstruction identity `quotient * extent + remainder = input`. -/
theorem recon_axis (a : Int) (m : Nat) (hm : 0 < m) :
    a / (m : Int) * (m : Int) + ((a % (m : Int)).toNat : Int) = a := by
  have hpos : (0 : Int) < (m : Int) := by exact_mod_cast hm
  rw [Int.toNat_of_nonneg (Int.emod_nonneg _ (Int.ne_of_gt hpos))]
  calc a / (m : Int) * (m : Int) + a % (m : Int)
      = (m : Int) * (a / (m : Int)) + a % (m : Int) := by ring
    _ = a := Int.ediv_add_emod a _

/-!
## The claims
-/

/-- **C1** (code bug): the coverage property — "after `expand_to_fit_point(p, fill)`
a lookup at `p` returns present" — fails on the grid
`with_size((0,1), (5,0), 0)`: a legal, public construction (its buffer length
`0 = 0 * 1` satisfies the data-model invariant) whose size is not `(0,0)`, so
`expand_to_fit_box` takes its non-empty branch, while its buffer is empty, so
the `change_size` it triggers takes the empty-buffer substitution and — with
no early return — applies `offset` twice to the origin
(`with_size` already set `origin = offset`, then `self.origin += offset`).
The result has `origin = (-10, 0)` and `size = (5, 1)`, which does not contain
the requested point `(0, 0)`: `index_of` returns `none` and `get` reports
absence. -/
theorem expand_to_fit_point_misses_requested_point :
    (with_size ⟨0, 1⟩ ⟨5, 0⟩ (0 : Nat)).expand_to_fit_point ⟨0, 0⟩ 0 =
      some ⟨⟨5, 1⟩, ⟨-10, 0⟩, List.replicate 5 0⟩ ∧
    (⟨⟨5, 1⟩, ⟨-10, 0⟩, List.replicate 5 0⟩ : ExpandableGrid Nat).index_of ⟨0, 0⟩ = none ∧
    (⟨⟨5, 1⟩, ⟨-10, 0⟩, List.replicate 5 0⟩ : ExpandableGrid Nat).get ⟨0, 0⟩ =
      Lookup.absent := by
  decide

/-- **C2** (confirmed): growth preserves content and never shrinks. For any
grid satisfying the buffer-length invariant and any coordinate `c` in bounds
before `expand_to_fit_box` (so before the `change_size` it may trigger; and
`expand_to_fit_point p fill` is definitionally `expand_to_fit_box p (1,1) fill`,
so it is covered with `box_size = (1,1)`), the operation succeeds, neither
axis of `size` decreases, `c` is still in bounds afterwards, and the buffer
cell the translator assigns to `c` holds the same stored value — however the
growth was distributed across the axes. -/
theorem expand_to_fit_box_preserves_content (g : ExpandableGrid T)
    (box_origin : Vector2 Int) (box_size : Vector2 Nat) (fill : T)
    (c : Vector2 Int) (k : Nat)
    (hlen : g.data.length = g.size.x * g.size.y)
    (hin : g.index_of c = some k) :
    ∃ g', g.expand_to_fit_box box_origin box_size fill = some g' ∧
      g.size.x ≤ g'.size.x ∧ g.size.y ≤ g'.size.y ∧
      ∃ k', g'.index_of c = some k' ∧ g'.data[k']? = g.data[k]? := by
  rw [index_of_eq_some_iff] at hin
  obtain ⟨⟨hx1, hx2, hy1, hy2⟩, hk⟩ := hin
  have ha : (c.x - g.origin.x).toNat < g.size.x := by omega
  have hb : (c.y - g.origin.y).toNat < g.size.y := by omega
  have hw : 0 < g.size.x := by omega
  have hh : 0 < g.size.y := by omega
  have hne : g.data.length ≠ 0 := by
    rw [hlen]
    exact Nat.ne_of_gt (Nat.mul_pos hw hh)
  simp only [expand_to_fit_box]
  rw [if_neg (by omega)]
  split_ifs with hexp
  · refine ⟨_, change_size_expand g fill (growth_low_x g box_origin)
      (growth_high_x g box_origin box_size) (growth_low_y g box_origin)
      (growth_high_y g box_origin box_size) hlen hne, ?_, ?_, ?_⟩
    · simp only
      omega
    · simp only
      omega
    · refine ⟨((c.x - g.origin.x).toNat + growth_low_x g box_origin) +
        ((c.y - g.origin.y).toNat + growth_low_y g box_origin) *
          (g.size.x + growth_low_x g box_origin + growth_high_x g box_origin box_size),
        ?_, ?_⟩
      · rw [index_of_eq_some_iff]
        constructor
        · unfold InBounds
          simp only
          push_cast
          refine ⟨by omega, by omega, by omega, by omega⟩
        · simp only
          have e1 : (c.x - (g.origin.x + -((growth_low_x g box_origin : Nat) : Int))).toNat =
              (c.x - g.origin.x).toNat + growth_low_x g box_origin := by omega
          have e2 : (c.y - (g.origin.y + -((growth_low_y g box_origin : Nat) : Int))).toNat =
              (c.y - g.origin.y).toNat + growth_low_y g box_origin := by omega
          rw [e1, e2]
      · simp only
        have hlook := expanded_data_get g fill (growth_low_x g box_origin)
          (growth_high_x g box_origin box_size) (growth_low_y g box_origin)
          (growth_high_y g box_origin box_size)
          (c.x - g.origin.x).toNat (c.y - g.origin.y).toNat hlen ha hb
        rw [hlook, hk]
  · exact ⟨g, rfl, Nat.le_refl _, Nat.le_refl _, k,
      by rw [index_of_eq_some_iff]; exact ⟨⟨hx1, hx2, hy1, hy2⟩, hk⟩, rfl⟩

/-- Witness for C2: a concrete 1×1 grid holding `7` at `(0,0)`, expanded to fit
the box at `(-2,0)`; the stored value survives. -/
theorem expand_to_fit_box_preserves_content_witness :
    ∃ g', (with_size ⟨1, 1⟩ ⟨0, 0⟩ (7 : Nat)).expand_to_fit_box ⟨-2, 0⟩ ⟨1, 1⟩ 0 = some g' ∧
      (with_size ⟨1, 1⟩ ⟨0, 0⟩ (7 : Nat)).size.x ≤ g'.size.x ∧
      (with_size ⟨1, 1⟩ ⟨0, 0⟩ (7 : Nat)).size.y ≤ g'.size.y ∧
      ∃ k', g'.index_of ⟨0, 0⟩ = some k' ∧
        g'.data[k']? = (with_size ⟨1, 1⟩ ⟨0, 0⟩ (7 : Nat)).data[0]? :=
  expand_to_fit_box_preserves_content _ ⟨-2, 0⟩ ⟨1, 1⟩ 0 ⟨0, 0⟩ 0 (by decide) (by decide)

/-- **C3** (code bug): on an empty grid, `change_size((2,2), (1,1), 0)` should
degenerate to the direct construction `with_size((2,2), (1,1), 0)` (spec §4.4,
and the source's own comment "Maintain consistant behavior if the grid is
empty"), but the empty-buffer branch lacks an early return: `*self` is replaced
by `with_size(new_size, offset, fill)` (origin = offset) and then the tail of
the function runs `self.origin += offset` again, leaving `origin = (2,2)`
instead of `(1,1)`. -/
theorem change_size_empty_grid_origin_doubled :
    (new : ExpandableGrid Nat).change_size ⟨2, 2⟩ ⟨1, 1⟩ 0 =
      some ⟨⟨2, 2⟩, ⟨2, 2⟩, List.replicate 4 0⟩ ∧
    with_size ⟨2, 2⟩ ⟨1, 1⟩ (0 : Nat) = ⟨⟨2, 2⟩, ⟨1, 1⟩, List.replicate 4 0⟩ ∧
    ((⟨2, 2⟩ : Vector2 Int) ≠ ⟨1, 1⟩) := by
  decide

/-- **C4** (confirmed): the coordinate translator `index_of` returns absence
exactly for coordinates outside `[origin, origin + size)` on either axis, and
for every coordinate inside it returns the buffer position
`(c.x - origin.x) + (c.y - origin.y) * size.width`. -/
theorem index_of_absence_precision (g : ExpandableGrid T) (c : Vector2 Int) :
    (g.index_of c = none ↔ ¬ g.InBounds c) ∧
    (g.InBounds c → ∃ n : Nat, g.index_of c = some n ∧
      (n : Int) = (c.x - g.origin.x) + (c.y - g.origin.y) * (g.size.x : Int)) := by
  refine ⟨index_of_eq_none_iff g c, fun hin => ?_⟩
  refine ⟨(c.x - g.origin.x).toNat + (c.y - g.origin.y).toNat * g.size.x,
    (index_of_eq_some_iff g c _).2 ⟨hin, rfl⟩, ?_⟩
  obtain ⟨h1, h2, h3, h4⟩ := hin
  push_cast
  rw [Int.toNat_of_nonneg (show (0 : Int) ≤ c.x - g.origin.x by omega),
    Int.toNat_of_nonneg (show (0 : Int) ≤ c.y - g.origin.y by omega)]

/-- **C5** (confirmed): the exponential growth rule. For every shortfall
`d > 0` and axis size `s`, `calculate_exponential_distance d s` is
`max(s + d, s * 2) - s` (so the new axis size is `max(s + d, s * 2)`); and
when a box extends past both the low and the high end of the same axis of a
non-empty grid, both sides' growth amounts are computed against the same
pre-growth axis size and added: the resulting axis size is
`s + exp_distance(low shortfall, s) + exp_distance(high shortfall, s)`. Both
axes are stated. -/
theorem exponential_growth_rule_additive (T : Type) :
    (∀ (d : Int) (s : Nat), 0 < d →
      (calculate_exponential_distance d s : Int) =
        max ((s : Int) + d) ((s : Int) * 2) - (s : Int)) ∧
    (∀ (g : ExpandableGrid T) (bo : Vector2 Int) (bs : Vector2 Nat) (fill : T)
      (g' : ExpandableGrid T),
      ¬(g.size.x = 0 ∧ g.size.y = 0) →
      bo.x < g.origin.x →
      (bs.x : Int) + bo.x > (g.size.x : Int) + g.origin.x →
      g.expand_to_fit_box bo bs fill = some g' →
      g'.size.x = g.size.x +
        calculate_exponential_distance (g.origin.x - bo.x) g.size.x +
        calculate_exponential_distance
          (((bs.x : Int) + bo.x) - ((g.size.x : Int) + g.origin.x)) g.size.x) ∧
    (∀ (g : ExpandableGrid T) (bo : Vector2 Int) (bs : Vector2 Nat) (fill : T)
      (g' : ExpandableGrid T),
      ¬(g.size.x = 0 ∧ g.size.y = 0) →
      bo.y < g.origin.y →
      (bs.y : Int) + bo.y > (g.size.y : Int) + g.origin.y →
      g.expand_to_fit_box bo bs fill = some g' →
      g'.size.y = g.size.y +
        calculate_exponential_distance (g.origin.y - bo.y) g.size.y +
        calculate_exponential_distance
          (((bs.y : Int) + bo.y) - ((g.size.y : Int) + g.origin.y)) g.size.y) := by
  refine ⟨fun d s hd => ?_, fun g bo bs fill g' h0 hlow hhigh hsome => ?_,
    fun g bo bs fill g' h0 hlow hhigh hsome => ?_⟩
  · simp only [calculate_exponential_distance]
    omega
  · simp only [expand_to_fit_box] at hsome
    rw [if_neg h0, if_pos (Or.inl hlow)] at hsome
    obtain ⟨hsz, -⟩ := change_size_success _ _ _ _ _ hsome
    rw [hsz]
    simp only [growth_low_x, growth_high_x]
    rw [if_pos hlow, if_pos hhigh]
  · simp only [expand_to_fit_box] at hsome
    rw [if_neg h0, if_pos (Or.inr (Or.inr (Or.inl hlow)))] at hsome
    obtain ⟨hsz, -⟩ := change_size_success _ _ _ _ _ hsome
    rw [hsz]
    simp only [growth_low_y, growth_high_y]
    rw [if_pos hlow, if_pos hhigh]

/-- **C6** (confirmed): every public operation preserves
`buffer.length = size.width * size.height`: the empty constructor and
`with_size` establish it, `change_size` (re)establishes it whenever it
completes, `expand_to_fit_box` and `expand_to_fit_point` preserve it, and a
point write through `get_mut` (`set`) changes neither `size`, `origin` nor the
buffer length. Reads (`get`/`get_mut`) are pure functions of the grid in this
embedding and mutate nothing by construction. -/
theorem buffer_length_invariant_preserved (T : Type) :
    ((new : ExpandableGrid T).data.length =
      (new : ExpandableGrid T).size.x * (new : ExpandableGrid T).size.y) ∧
    (∀ (s : Vector2 Nat) (o : Vector2 Int) (fill : T),
      (with_size s o fill).data.length =
        (with_size s o fill).size.x * (with_size s o fill).size.y) ∧
    (∀ (g : ExpandableGrid T) (ns : Vector2 Nat) (off : Vector2 Int) (fill : T)
      (g' : ExpandableGrid T), g.change_size ns off fill = some g' →
      g'.data.length = g'.size.x * g'.size.y) ∧
    (∀ (g : ExpandableGrid T) (bo : Vector2 Int) (bs : Vector2 Nat) (fill : T)
      (g' : ExpandableGrid T), g.data.length = g.size.x * g.size.y →
      g.expand_to_fit_box bo bs fill = some g' →
      g'.data.length = g'.size.x * g'.size.y) ∧
    (∀ (g : ExpandableGrid T) (p : Vector2 Int) (fill : T) (g' : ExpandableGrid T),
      g.data.length = g.size.x * g.size.y →
      g.expand_to_fit_point p fill = some g' →
      g'.data.length = g'.size.x * g'.size.y) ∧
    (∀ (g : ExpandableGrid T) (c : Vector2 Int) (v : T),
      (g.set c v).size = g.size ∧ (g.set c v).origin = g.origin ∧
      (g.set c v).data.length = g.data.length) := by
  refine ⟨rfl, fun s o fill => ?_, fun g ns off fill g' h => ?_,
    fun g bo bs fill g' hlen h => expand_to_fit_box_length g bo bs fill g' hlen h,
    fun g p fill g' hlen h => expand_to_fit_box_length g p ⟨1, 1⟩ fill g' hlen h,
    fun g c v => ?_⟩
  · simp [with_size]
  · obtain ⟨hsz, hdl⟩ := change_size_success _ _ _ _ _ h
    rw [hdl, hsz]
  · unfold set
    split <;> simp

/-- **C7** (confirmed): for an out-of-bounds coordinate, `get` and `get_mut`
report soft absence (Rust `None`), never a panic, while the `Index`/`IndexMut`
operators panic; for an in-bounds coordinate (under the buffer-length
invariant) all access paths return the same element. The two failure modes
are distinct constructors of `Lookup` and are never conflated. -/
theorem soft_absence_vs_fatal_indexing (g : ExpandableGrid T) (c : Vector2 Int) :
    (¬ g.InBounds c → g.get c = Lookup.absent ∧ g.get_mut c = Lookup.absent ∧
      g.index_op c = Lookup.panicked) ∧
    (g.data.length = g.size.x * g.size.y → g.InBounds c →
      ∃ v : T, g.get c = Lookup.found v ∧ g.get_mut c = Lookup.found v ∧
        g.index_op c = Lookup.found v) ∧
    (Lookup.absent ≠ (Lookup.panicked : Lookup T)) := by
  refine ⟨fun hout => ?_, fun hlen hin => ?_, by simp⟩
  · have hnone : g.index_of c = none := (index_of_eq_none_iff g c).2 hout
    refine ⟨?_, ?_, ?_⟩ <;> simp [get, get_mut, index_op, hnone]
  · have hsome : g.index_of c =
        some ((c.x - g.origin.x).toNat + (c.y - g.origin.y).toNat * g.size.x) :=
      (index_of_eq_some_iff g c _).2 ⟨hin, rfl⟩
    obtain ⟨h1, h2, h3, h4⟩ := hin
    have hk : (c.x - g.origin.x).toNat + (c.y - g.origin.y).toNat * g.size.x
        < g.data.length := by
      rw [hlen]
      exact lt_total_of_components _ _ _ _ (by omega) (by omega)
    obtain ⟨v, hv⟩ : ∃ v, g.data[(c.x - g.origin.x).toNat +
        (c.y - g.origin.y).toNat * g.size.x]? = some v :=
      ⟨_, List.getElem?_eq_getElem hk⟩
    exact ⟨v, by simp [get, hsome, hv], by simp [get_mut, hsome, hv],
      by simp [index_op, get, hsome, hv]⟩

/-- **C8** (confirmed, vacuously): inside `change_size`'s copy loop, with the
copy window exactly as the source computes it
(`start = isize_vec_to_usize_saturating(-offset)`,
`end = new_size - isize_vec_to_usize_saturating(offset + new_size - old_size)`),
the fatal negative-source-index condition (`checked_add_signed` failing — the
`expect`ed panic) holds exactly when some `(x, y)` in the window has
`x + offset.x < 0` or `y + offset.y < 0` — and no such `(x, y)` exists: for
every `x ≥ max(0, -offset.x)` one has `x + offset.x ≥ 0`, so the fatal branch
can never fire. -/
theorem copy_window_negative_source_never_fires (old : ExpandableGrid T)
    (new_size : Vector2 Nat) (offset : Vector2 Int) :
    ((∃ x y : Nat,
        (isize_vec_to_usize_saturating ⟨-offset.x, -offset.y⟩).x ≤ x ∧
        x < new_size.x - (isize_vec_to_usize_saturating
          ⟨offset.x + ((new_size.x : Int) - (old.size.x : Int)),
           offset.y + ((new_size.y : Int) - (old.size.y : Int))⟩).x ∧
        (isize_vec_to_usize_saturating ⟨-offset.x, -offset.y⟩).y ≤ y ∧
        y < new_size.y - (isize_vec_to_usize_saturating
          ⟨offset.x + ((new_size.x : Int) - (old.size.x : Int)),
           offset.y + ((new_size.y : Int) - (old.size.y : Int))⟩).y ∧
        (checked_add_signed x offset.x = none ∨ checked_add_signed y offset.y = none)) ↔
      (∃ x y : Nat,
        (isize_vec_to_usize_saturating ⟨-offset.x, -offset.y⟩).x ≤ x ∧
        x < new_size.x - (isize_vec_to_usize_saturating
          ⟨offset.x + ((new_size.x : Int) - (old.size.x : Int)),
           offset.y + ((new_size.y : Int) - (old.size.y : Int))⟩).x ∧
        (isize_vec_to_usize_saturating ⟨-offset.x, -offset.y⟩).y ≤ y ∧
        y < new_size.y - (isize_vec_to_usize_saturating
          ⟨offset.x + ((new_size.x : Int) - (old.size.x : Int)),
           offset.y + ((new_size.y : Int) - (old.size.y : Int))⟩).y ∧
        ((x : Int) + offset.x < 0 ∨ (y : Int) + offset.y < 0))) ∧
    ¬(∃ x y : Nat,
        (isize_vec_to_usize_saturating ⟨-offset.x, -offset.y⟩).x ≤ x ∧
        x < new_size.x - (isize_vec_to_usize_saturating
          ⟨offset.x + ((new_size.x : Int) - (old.size.x : Int)),
           offset.y + ((new_size.y : Int) - (old.size.y : Int))⟩).x ∧
        (isize_vec_to_usize_saturating ⟨-offset.x, -offset.y⟩).y ≤ y ∧
        y < new_size.y - (isize_vec_to_usize_saturating
          ⟨offset.x + ((new_size.x : Int) - (old.size.x : Int)),
           offset.y + ((new_size.y : Int) - (old.size.y : Int))⟩).y ∧
        ((x : Int) + offset.x < 0 ∨ (y : Int) + offset.y < 0)) := by
  constructor
  · simp only [checked_add_signed_eq_none_iff]
  · rintro ⟨x, y, h1, h2, h3, h4, h5 | h5⟩ <;>
    · simp only [isize_vec_to_usize_saturating] at h1 h3
      omega

/-- **C9** (confirmed): `subchunk_index_of` returns the Euclidean floor
quotient per axis for the tile coordinate and the Euclidean floor remainder
per axis for the intra-tile offset, the offset always lying in `[0, extent)`;
and concretely, for extent `(16,16)`, fine `(-1,-1)` maps to tile `(-1,-1)`
with offset `(15,15)`, and fine `(16,0)` maps to tile `(1,0)` with offset
`(0,0)`. -/
theorem subchunk_floor_translation :
    (∀ (sub_size : Vector2 Nat) (i : Vector2 Int), 0 < sub_size.x → 0 < sub_size.y →
      (subchunk_index_of sub_size i).1.x = Int.fdiv i.x (sub_size.x : Int) ∧
      (subchunk_index_of sub_size i).1.y = Int.fdiv i.y (sub_size.y : Int) ∧
      ((subchunk_index_of sub_size i).2.x : Int) = Int.fmod i.x (sub_size.x : Int) ∧
      ((subchunk_index_of sub_size i).2.y : Int) = Int.fmod i.y (sub_size.y : Int) ∧
      (subchunk_index_of sub_size i).2.x < sub_size.x ∧
      (subchunk_index_of sub_size i).2.y < sub_size.y) ∧
    subchunk_index_of ⟨16, 16⟩ ⟨-1, -1⟩ = (⟨-1, -1⟩, ⟨15, 15⟩) ∧
    subchunk_index_of ⟨16, 16⟩ ⟨16, 0⟩ = (⟨1, 0⟩, ⟨0, 0⟩) := by
  refine ⟨fun sub_size i hx hy => ?_, by decide, by decide⟩
  obtain ⟨dx, mx, bx⟩ := floor_axis i.x sub_size.x hx
  obtain ⟨dy, my, by'⟩ := floor_axis i.y sub_size.y hy
  exact ⟨dx, dy, mx, my, bx, by'⟩

/-- **C10** (confirmed): the subchunk translation reconstructs its input —
`tile * extent + offset = fine` on each axis — and is therefore injective on
fine coordinates (with the offset range of C9 this makes the decomposition a
bijection onto pairs of a tile coordinate and an in-range intra-tile offset). -/
theorem subchunk_translation_reconstructs (sub_size : Vector2 Nat) (i : Vector2 Int)
    (hx : 0 < sub_size.x) (hy : 0 < sub_size.y) :
    ((subchunk_index_of sub_size i).1.x * (sub_size.x : Int) +
      ((subchunk_index_of sub_size i).2.x : Int) = i.x) ∧
    ((subchunk_index_of sub_size i).1.y * (sub_size.y : Int) +
      ((subchunk_index_of sub_size i).2.y : Int) = i.y) ∧
    (∀ j : Vector2 Int, subchunk_index_of sub_size i = subchunk_index_of sub_size j →
      i = j) := by
  refine ⟨recon_axis i.x sub_size.x hx, recon_axis i.y sub_size.y hy, fun j hj => ?_⟩
  have e1 := congrArg (fun p => p.1.x * (sub_size.x : Int) + ((p.2.x : Nat) : Int)) hj
  have e2 := congrArg (fun p => p.1.y * (sub_size.y : Int) + ((p.2.y : Nat) : Int)) hj
  simp only [subchunk_index_of] at e1 e2
  rw [recon_axis i.x sub_size.x hx, recon_axis j.x sub_size.x hx] at e1
  rw [recon_axis i.y sub_size.y hy, recon_axis j.y sub_size.y hy] at e2
  cases i
  cases j
  simp_all

/-- Witness for C10 at extent `(16,16)` and fine coordinate `(-1,-1)`. -/
theorem subchunk_translation_reconstructs_witness :
    ((subchunk_index_of ⟨16, 16⟩ ⟨-1, -1⟩).1.x * ((16 : Nat) : Int) +
      ((subchunk_index_of ⟨16, 16⟩ ⟨-1, -1⟩).2.x : Int) = -1) ∧
    ((subchunk_index_of ⟨16, 16⟩ ⟨-1, -1⟩).1.y * ((16 : Nat) : Int) +
      ((subchunk_index_of ⟨16, 16⟩ ⟨-1, -1⟩).2.y : Int) = -1) ∧
    (∀ j : Vector2 Int, subchunk_index_of ⟨16, 16⟩ ⟨-1, -1⟩ = subchunk_index_of ⟨16, 16⟩ j →
      (⟨-1, -1⟩ : Vector2 Int) = j) :=
  subchunk_translation_reconstructs ⟨16, 16⟩ ⟨-1, -1⟩ (by decide) (by decide)

end ExpandableGrid
